import Mathlib

/-!
# go-async: tasks, tasksets and fault-to-result conversion

A shallow embedding of `src/async.go`.

* Go values of type `interface{}` are a small tagged union (`Value`).
* A handler is a deterministic function from its parameters to what its call does:
  it returns a `TaskResult` or it panics with a value. A handler that blocks or loops
  forever is outside the model.
* A resolver is a callback with effects; it is a state transformer that may panic.
* A goroutine is described by what it has done when it stops: the state it leaves,
  the resolver invocations it made (in order) and how it stopped.
* `sync.WaitGroup` is an integer counter; `Wait` returns only when it is zero.
* The goroutines of a taskset each write only their own slot of `results` and then
  decrement the wait group, so each is one atomic block and a schedule is the order in
  which the goroutines complete.
-/

namespace Async

/-! ## Data model (async.go lines 9-33) -/

/-- Go value of type `interface{}`: the nil interface, an int or a string. -/
inductive Value where
  | nil : Value
  | int (n : Int) : Value
  | str (s : String) : Value
  deriving DecidableEq, Repr

/-- Non-nil Go `error` value, identified by the text `Error()` returns. -/
structure GoError where
  msg : String
  deriving DecidableEq, Repr

/-- TaskResult of async.go: `Data interface{}` and `Err error` (`none` is the nil error). -/
structure TaskResult where
  Data : Value
  Err : Option GoError
  deriving DecidableEq, Repr

/-- Value carried by a panic as `recover()` observes it. It is never nil: a run-time
fault carries a `runtime.Error`, and since Go 1.21 `panic(nil)` is delivered as a
`*runtime.PanicNilError`, which is an error value as well. -/
inductive PanicVal where
  | str (s : String) : PanicVal
  | err (e : GoError) : PanicVal
  | int (n : Int) : PanicVal
  deriving DecidableEq, Repr

/-- What one call of a handler does: it returns a result or it panics. -/
inductive HandlerOutcome where
  | returns (r : TaskResult) : HandlerOutcome
  | panics (v : PanicVal) : HandlerOutcome

/-- Handler of async.go: `func([]interface{}) TaskResult`. -/
abbrev Handler := List Value → HandlerOutcome

/-- Task of async.go. A nil function value for `handler` is `none`. -/
structure Task where
  handler : Option Handler
  params : List Value

/-- Taskset of async.go: a sequence of `*Task`, where a nil pointer is `none`. -/
structure Taskset where
  tasks : List (Option Task)

/-- TaskResolver of async.go: `func(TaskResult)`, a callback acting on a state `σ` that may
panic (the state it leaves behind is kept in either case). -/
abbrev TaskResolver (σ : Type) := TaskResult → σ → σ × Option PanicVal

/-- TasksetResolver of async.go: `func([]TaskResult)`. -/
abbrev TasksetResolver (σ : Type) := List TaskResult → σ → σ × Option PanicVal

/-- How a goroutine stops: it finishes, it blocks forever, or a panic leaves it unrecovered
(which terminates the whole process). -/
inductive GoEnd where
  | done : GoEnd
  | blocked : GoEnd
  | crashed (v : PanicVal) : GoEnd
  deriving DecidableEq, Repr

/-- Observable run of a goroutine that calls a resolver with arguments of type `α`. -/
structure Goroutine (α σ : Type) where
  state : σ
  calls : List α
  status : GoEnd

/-- Result of a blocking call: it returns a value, never returns, or the process dies. -/
inductive Outcome (α : Type) where
  | ok (a : α) : Outcome α
  | deadlock : Outcome α
  | crash (v : PanicVal) : Outcome α
  deriving DecidableEq, Repr

/-- Zero value of `TaskResult`, as `make([]TaskResult, n)` and a named result hold it. -/
def zeroResult : TaskResult := { Data := Value.nil, Err := none }

/-! ## The parts of the Go library the code calls -/

/-- Text of the run-time panic raised by a nil pointer dereference or a nil function call. -/
def nilDerefMsg : String := "runtime error: invalid memory address or nil pointer dereference"

/-- Go `errors.New`. -/
def errorsNew (s : String) : GoError := { msg := s }

/-- Go `fmt.Sprintf("%s", r)`: a string prints as itself, an error as its `Error()` text,
an int as a bad-verb notice. -/
def sprintfS : PanicVal → String
  | PanicVal.str s => s
  | PanicVal.err e => e.msg
  | PanicVal.int n => "%!s(int=" ++ toString n ++ ")"

/-- Flag characters of a format directive (`fmt.doPrintf`). -/
def isFlag (c : Char) : Bool :=
  c == '#' || c == '0' || c == '+' || c == '-' || c == ' '

/-- Go `fmt.tooLarge`. -/
def tooLarge (x : Nat) : Bool := decide (x > 1000000)

/-- Loop of `fmt.parsenum` over the text between `start` and `end`: the number read, whether
a digit was read, and the text left. On overflow the position jumps to `end`. -/
def parsenumLoop : List Char → Nat → Bool → Nat × Bool × List Char
  | [], num, isnum => (num, isnum, [])
  | c :: cs, num, isnum =>
    if c.isDigit then
      if tooLarge num then (0, false, [])
      else parsenumLoop cs (num * 10 + (c.toNat - 48)) true
    else (num, isnum, c :: cs)

/-- Go `fmt.parsenum` on the text between `start` and `end`. -/
def parsenum (seg : List Char) : Nat × Bool × List Char :=
  match seg with
  | [] => (0, false, [])
  | _ => parsenumLoop seg 0 false

/-- Length in bytes of a text (Go `len` on a string). -/
def byteLen (s : List Char) : Nat := (s.map Char.utf8Size).sum

/-- Go `fmt.parseArgNumber` on a text that starts with `[`: the number of characters of the
`[n]` item and whether it is well formed. -/
def parseArgNumber (s : List Char) : Nat × Bool :=
  if byteLen s < 3 then (1, false)
  else
    let body := s.drop 1
    let j := body.indexOf ']'
    if j < body.length then
      match parsenum (body.take j) with
      | (_, ok, rest) => if ok && rest.isEmpty then (j + 2, true) else (j + 2, false)
    else (1, false)

/-- Go `pp.argNumber` when the argument list is empty: the text left, whether an index
was found, and whether `goodArgNum` was cleared (no index is in range). -/
def argNumber (s : List Char) : List Char × Bool × Bool :=
  match s with
  | '[' :: _ =>
    match parseArgNumber s with
    | (wid, ok) => (s.drop wid, ok, true)
  | _ => (s, false, false)

/-- Width part of a directive (`fmt.doPrintf`, "Do we have width?"). With no argument a
`*` writes the bad-width notice; otherwise a number is read, and a number right after an
index clears `goodArgNum`. Gives the text written, the format left, `afterIndex` and
whether `goodArgNum` is cleared. -/
def widthStep (s : List Char) (afterIndex bad : Bool) :
    List Char × List Char × Bool × Bool :=
  match s with
  | '*' :: t => ("%!(BADWIDTH)".data, t, false, bad)
  | _ =>
    match parsenum s with
    | (_, present, t) => ([], t, afterIndex, bad || (afterIndex && present))

/-- Precision part of a directive (`fmt.doPrintf`, "Do we have precision?"). -/
def precStep (s : List Char) (afterIndex bad : Bool) :
    List Char × List Char × Bool × Bool :=
  match s with
  | '.' :: t =>
    match argNumber t with
    | (t1, ai, b) =>
      match t1 with
      | '*' :: t2 => ("%!(BADPREC)".data, t2, false, bad || afterIndex || b)
      | _ =>
        match parsenum t1 with
        | (_, _, t2) => ([], t2, ai, bad || afterIndex || b)
  | _ => ([], s, afterIndex, bad)

/-- The `if !afterIndex` step of `fmt.doPrintf`: an argument index may precede the verb. -/
def indexStep (s : List Char) (afterIndex bad : Bool) : List Char × Bool :=
  if afterIndex then (s, bad)
  else
    match argNumber s with
    | (t, _, b) => (t, bad || b)

/-- Verb part of a directive with no argument left: no verb, a literal percent, a bad
index, or a missing argument. Gives the text written and the format left. -/
def verbStep (s : List Char) (bad : Bool) : List Char × List Char :=
  match s with
  | [] => ("%!(NOVERB)".data, [])
  | verb :: rest =>
    if verb = '%' then (['%'], rest)
    else if bad then ("%!".data ++ [verb] ++ "(BADINDEX)".data, rest)
    else ("%!".data ++ [verb] ++ "(MISSING)".data, rest)

/-- One directive of `fmt.doPrintf` with an empty argument list, from the character after
the `%`: flags, argument index, width, precision, argument index, verb. Gives the text
written and the format text left. -/
def doVerb (s0 : List Char) : List Char × List Char :=
  match argNumber (s0.dropWhile isFlag) with
  | (s2, afterIndex1, bad1) =>
    match widthStep s2 afterIndex1 bad1 with
    | (out3, s3, afterIndex3, bad3) =>
      match precStep s3 afterIndex3 bad3 with
      | (out4, s4, afterIndex4, bad4) =>
        match indexStep s4 afterIndex4 bad4 with
        | (s5, bad5) =>
          match verbStep s5 bad5 with
          | (out5, rest) => (out3 ++ out4 ++ out5, rest)

/-- Main loop of `fmt.doPrintf` with an empty argument list: copy the text up to the next
`%`, then process one directive. Each round consumes at least the `%`. -/
def doPrintfLoop : Nat → List Char → List Char → List Char
  | 0, _, buf => buf
  | fuel + 1, s, buf =>
    let lit := s.takeWhile (fun c => c != '%')
    match s.dropWhile (fun c => c != '%') with
    | [] => buf ++ lit
    | _ :: afterPct =>
      match doVerb afterPct with
      | (out, rest) => doPrintfLoop fuel rest (buf ++ lit ++ out)

/-- Go `fmt.Errorf(format)` with no further argument: the text is the format with its
directives expanded. -/
def Errorf (format : String) : GoError :=
  { msg := String.mk (doPrintfLoop (format.length + 1) format.data []) }

/-! ## Task (async.go lines 35-67) -/

/-- New of async.go. -/
def New (handler : Option Handler) (params : List Value) : Task :=
  { handler := handler, params := params }

/-- Evaluation of `t.handler(task.params)` for a task pointer: a nil pointer and a nil
handler raise the run-time nil dereference panic, otherwise the handler runs. -/
def callHandler (task : Option Task) : HandlerOutcome :=
  match task with
  | none => HandlerOutcome.panics (PanicVal.err (errorsNew nilDerefMsg))
  | some t =>
    match t.handler with
    | none => HandlerOutcome.panics (PanicVal.err (errorsNew nilDerefMsg))
    | some h => h t.params

/-- Result the deferred function of `Task.Run` builds from a recovered panic value. -/
def faultResult (r : PanicVal) : TaskResult :=
  { Data := Value.nil, Err := some (Errorf (sprintfS r)) }

/-- Goroutine started by `Task.Run` (lines 45-54). The statement
`resolver(t.handler(task.params))` runs under a deferred function that recovers any panic
of that statement, the resolver call included, and calls the resolver with a fault result.
A panic of the resolver inside the deferred function is not recovered. -/
def Task.Run {σ : Type} (task : Option Task) (resolver : TaskResolver σ) (s : σ) :
    Goroutine TaskResult σ :=
  match callHandler task with
  | HandlerOutcome.returns r =>
    match resolver r s with
    | (s1, none) => { state := s1, calls := [r], status := GoEnd.done }
    | (s1, some v) =>
      match resolver (faultResult v) s1 with
      | (s2, none) => { state := s2, calls := [r, faultResult v], status := GoEnd.done }
      | (s2, some v2) =>
        { state := s2, calls := [r, faultResult v], status := GoEnd.crashed v2 }
  | HandlerOutcome.panics v =>
    match resolver (faultResult v) s with
    | (s1, none) => { state := s1, calls := [faultResult v], status := GoEnd.done }
    | (s1, some v2) => { state := s1, calls := [faultResult v], status := GoEnd.crashed v2 }

/-- Variables `res` and `wg` of `Task.Await`. -/
structure AwaitState where
  res : TaskResult
  wg : Int

/-- The closure `Task.Await` passes to `Run`: `res = r`, then the deferred `wg.Done()`, which
panics when the counter becomes negative. -/
def awaitResolver : TaskResolver AwaitState := fun r st =>
  ({ res := r, wg := st.wg - 1 },
    if st.wg - 1 < 0 then some (PanicVal.str "sync: negative WaitGroup counter") else none)

/-- Await of async.go (lines 58-67): `wg.Add(1)`, `Run` with the closure, `wg.Wait()`, and
the named result `res` is returned. -/
def Task.Await (task : Option Task) : Outcome TaskResult :=
  let g := Task.Run task awaitResolver { res := zeroResult, wg := 1 }
  match g.status with
  | GoEnd.crashed v => Outcome.crash v
  | GoEnd.blocked => Outcome.deadlock
  | GoEnd.done => if g.state.wg = 0 then Outcome.ok g.state.res else Outcome.deadlock

/-- Result `Task.Await` hands back, in closed form: the handler's own result when the call
returns, the fault result when it panics. -/
def awaitResult (task : Option Task) : TaskResult :=
  match callHandler task with
  | HandlerOutcome.returns r => r
  | HandlerOutcome.panics v => faultResult v

/-! ## Taskset (async.go lines 69-117) -/

/-- Add of async.go. -/
def Taskset.Add (taskset : Taskset) (task : Option Task) : Taskset :=
  { tasks := taskset.tasks ++ [task] }

/-- Taskset built by adding the given tasks, in order, to an empty one. -/
def Taskset.addAll (tasks : List (Option Task)) : Taskset :=
  tasks.foldl Taskset.Add { tasks := [] }

/-- Variables shared by the goroutines of one taskset run: the result slice, the wait group
counter, and the panic that killed the process, if any. -/
structure SetState where
  results : List TaskResult
  wg : Int
  crash : Option PanicVal

/-- The error a nil task is given at lines 85-87 and 108-110. -/
def nullTaskResult : TaskResult :=
  { Data := Value.nil, Err := some (errorsNew "task is null") }

/-- Goroutine of `AwaitAll` for one task (lines 105-113): with `wg.Done()` deferred, a nil
task first gets the null-task error in its slot, and then, nil or not, the slot is assigned
`task.Await()`. -/
def awaitAllWorker (task : Option Task) (tid : Nat) (st : SetState) : SetState :=
  match st.crash with
  | some _ => st
  | none =>
    let results1 := if task.isNone then st.results.set tid nullTaskResult else st.results
    match Task.Await task with
    | Outcome.ok r => { results := results1.set tid r, wg := st.wg - 1, crash := none }
    | Outcome.deadlock => { results := results1, wg := st.wg, crash := none }
    | Outcome.crash v => { results := results1, wg := st.wg, crash := some v }

/-- Goroutine of `Taskset.Run` for one task (lines 82-90). -/
def runWorker (task : Option Task) (tid : Nat) (st : SetState) : SetState :=
  match st.crash with
  | some _ => st
  | none =>
    let results1 :=
      match task with
      | none => st.results.set tid nullTaskResult
      | some _ => st.results
    match Task.Await task with
    | Outcome.ok r => { results := results1.set tid r, wg := st.wg - 1, crash := none }
    | Outcome.deadlock => { results := results1, wg := st.wg, crash := none }
    | Outcome.crash v => { results := results1, wg := st.wg, crash := some v }

/-- AwaitAll of async.go (lines 100-117). One goroutine is started per index of
`taskset.tasks`; `sched` is the order in which they complete. `wg.Wait()` returns only with
the counter at zero, and then the result slice is returned. -/
def Taskset.AwaitAll (taskset : Taskset) (sched : List Nat) : Outcome (List TaskResult) :=
  let st0 : SetState :=
    { results := List.replicate taskset.tasks.length zeroResult,
      wg := taskset.tasks.length, crash := none }
  let st := sched.foldl
    (fun st idx =>
      match taskset.tasks[idx]? with
      | some task => awaitAllWorker task idx st
      | none => st) st0
  match st.crash with
  | some v => Outcome.crash v
  | none => if st.wg = 0 then Outcome.ok st.results else Outcome.deadlock

/-- Goroutine started by `Taskset.Run` (lines 75-97), with the result slice made before it
starts. After `wg.Wait()` the resolver is called with the result slice; a panic of the
resolver is not recovered. -/
def Taskset.Run {σ : Type} (taskset : Taskset) (resolver : TasksetResolver σ)
    (sched : List Nat) (s : σ) : Goroutine (List TaskResult) σ :=
  let st0 : SetState :=
    { results := List.replicate taskset.tasks.length zeroResult,
      wg := taskset.tasks.length, crash := none }
  let st := sched.foldl
    (fun st idx =>
      match taskset.tasks[idx]? with
      | some task => runWorker task idx st
      | none => st) st0
  match st.crash with
  | some v => { state := s, calls := [], status := GoEnd.crashed v }
  | none =>
    if st.wg = 0 then
      match resolver st.results s with
      | (s1, none) => { state := s1, calls := [st.results], status := GoEnd.done }
      | (s1, some v) => { state := s1, calls := [st.results], status := GoEnd.crashed v }
    else { state := s, calls := [], status := GoEnd.blocked }

/-- Whether the handler call of a task returns normally. -/
def returnsNormally (task : Option Task) : Bool :=
  match callHandler task with
  | HandlerOutcome.returns _ => true
  | HandlerOutcome.panics _ => false

/-! ## Sample handlers and resolvers -/

/-- A handler that adds its first two parameters; a missing or non-int parameter is a
run-time panic. -/
def sumHandler : Handler := fun params =>
  match params with
  | Value.int a :: Value.int b :: _ =>
    HandlerOutcome.returns { Data := Value.int (a + b), Err := none }
  | _ => HandlerOutcome.panics (PanicVal.err (errorsNew "runtime error: bad sum operands"))

/-- A handler that returns `params[0]`, which panics on an empty parameter list. -/
def firstHandler : Handler := fun params =>
  match params with
  | v :: _ => HandlerOutcome.returns { Data := v, Err := none }
  | [] => HandlerOutcome.panics
      (PanicVal.err (errorsNew "runtime error: index out of range [0] with length 0"))

/-- A handler that produces the int `n`. -/
def constHandler (n : Int) : Handler := fun _ =>
  HandlerOutcome.returns { Data := Value.int n, Err := none }

/-- A handler that panics with the string `m`. -/
def panicHandler (m : String) : Handler := fun _ => HandlerOutcome.panics (PanicVal.str m)

/-- A resolver that counts its invocations and returns normally. -/
def countResolver : TaskResolver Nat := fun _ n => (n + 1, none)

/-- A resolver that counts its invocations and panics each time. -/
def panicResolver : TaskResolver Nat := fun _ n => (n + 1, some (PanicVal.str "resolver failed"))

/-- A taskset resolver that counts its invocations and returns normally. -/
def countSetResolver : TasksetResolver Nat := fun _ n => (n + 1, none)

/-! ## Lemmas -/

theorem await_eq (task : Option Task) : Task.Await task = Outcome.ok (awaitResult task) := by
  unfold Task.Await Task.Run awaitResult
  cases h : callHandler task <;> simp [awaitResolver]

theorem awaitAllWorker_eq (task : Option Task) (tid : Nat) (st : SetState)
    (h : st.crash = none) :
    awaitAllWorker task tid st =
      { results := st.results.set tid (awaitResult task), wg := st.wg - 1, crash := none } := by
  unfold awaitAllWorker
  rw [h, await_eq]
  cases task <;> simp [List.set_set]

/-- Slot writes of a completion order, applied to a result slice. -/
theorem foldl_set_getElem? (f : Nat → TaskResult) (sched : List Nat) (rs : List TaskResult)
    (i : Nat) (hi : i < rs.length) :
    (sched.foldl (fun acc idx => acc.set idx (f idx)) rs)[i]? =
      if i ∈ sched then some (f i) else rs[i]? := by
  induction sched generalizing rs with
  | nil => simp
  | cons a t ih =>
    simp only [List.foldl_cons]
    rw [ih (rs.set a (f a)) (by simpa using hi)]
    by_cases h1 : i ∈ t
    · simp [h1]
    · by_cases h2 : a = i
      · subst h2
        simp [h1, hi]
      · have h3 : ¬ i = a := fun h => h2 h.symm
        simp [h1, h3, List.getElem?_set, h2]

theorem foldl_set_length (f : Nat → TaskResult) (sched : List Nat) (rs : List TaskResult) :
    (sched.foldl (fun acc idx => acc.set idx (f idx)) rs).length = rs.length := by
  induction sched generalizing rs with
  | nil => simp
  | cons a t ih => simp [ih]

/-- State reached by the goroutines of `AwaitAll` when every scheduled index is valid. -/
theorem foldl_awaitAllWorker (tasks : List (Option Task)) (sched : List Nat)
    (hs : ∀ idx ∈ sched, idx < tasks.length) (st : SetState) (hc : st.crash = none) :
    sched.foldl
      (fun st idx =>
        match tasks[idx]? with
        | some task => awaitAllWorker task idx st
        | none => st) st =
    { results := sched.foldl
        (fun acc idx => acc.set idx (awaitResult (tasks.getD idx none))) st.results,
      wg := st.wg - sched.length, crash := none } := by
  induction sched generalizing st with
  | nil => cases st; simp_all
  | cons a t ih =>
    have ha : a < tasks.length := hs a (by simp)
    simp only [List.foldl_cons]
    rw [List.getElem?_eq_getElem ha]
    simp only
    rw [awaitAllWorker_eq _ _ _ hc, ih (fun idx h => hs idx (by simp [h])) _ rfl]
    simp [List.getD_eq_getElem?_getD, List.getElem?_eq_getElem ha]
    omega

theorem runWorker_eq_awaitAllWorker (task : Option Task) (tid : Nat) (st : SetState) :
    runWorker task tid st = awaitAllWorker task tid st := by
  unfold runWorker awaitAllWorker
  cases task <;> rfl

/-- Final state of the goroutines for a complete schedule. -/
theorem foldl_complete (tasks : List (Option Task)) (sched : List Nat)
    (hp : sched.Perm (List.range tasks.length)) :
    sched.foldl
      (fun st idx =>
        match tasks[idx]? with
        | some task => awaitAllWorker task idx st
        | none => st)
      { results := List.replicate tasks.length zeroResult, wg := tasks.length, crash := none } =
    { results := tasks.map awaitResult, wg := 0, crash := none } := by
  have hs : ∀ idx ∈ sched, idx < tasks.length := by
    intro idx h
    have := hp.mem_iff.mp h
    simpa using this
  rw [foldl_awaitAllWorker tasks sched hs _ rfl]
  have hl : sched.length = tasks.length := by simpa using hp.length_eq
  congr 1
  · apply List.ext_getElem?
    intro i
    by_cases hi : i < tasks.length
    · rw [foldl_set_getElem? _ _ _ _ (by simpa using hi)]
      have hm : i ∈ sched := hp.mem_iff.mpr (by simpa using hi)
      simp [hm, hi, List.getD_eq_getElem?_getD]
    · have h1 : tasks.length ≤ i := by omega
      rw [List.getElem?_eq_none (by simpa [foldl_set_length] using h1),
        List.getElem?_eq_none (by simpa using h1)]
  · simp [hl]

theorem awaitAll_eq (taskset : Taskset) (sched : List Nat)
    (hp : sched.Perm (List.range taskset.tasks.length)) :
    Taskset.AwaitAll taskset sched = Outcome.ok (taskset.tasks.map awaitResult) := by
  unfold Taskset.AwaitAll
  simp only [foldl_complete taskset.tasks sched hp]
  simp

theorem run_eq {σ : Type} (taskset : Taskset) (resolver : TasksetResolver σ)
    (sched : List Nat) (s : σ) (hp : sched.Perm (List.range taskset.tasks.length)) :
    Taskset.Run taskset resolver sched s =
      { state := (resolver (taskset.tasks.map awaitResult) s).1,
        calls := [taskset.tasks.map awaitResult],
        status := match (resolver (taskset.tasks.map awaitResult) s).2 with
          | none => GoEnd.done
          | some v => GoEnd.crashed v } := by
  unfold Taskset.Run
  simp only [runWorker_eq_awaitAllWorker, foldl_complete taskset.tasks sched hp]
  rcases h : resolver (taskset.tasks.map awaitResult) s with ⟨s1, _ | v⟩ <;> simp [h]

theorem addAll_tasks (tasks : List (Option Task)) : (Taskset.addAll tasks).tasks = tasks := by
  have h : ∀ (l : List (Option Task)) (ts : Taskset),
      (l.foldl Taskset.Add ts).tasks = ts.tasks ++ l := by
    intro l
    induction l with
    | nil => intro ts; simp
    | cons a t ih => intro ts; simp [ih, Taskset.Add]
  simpa [Taskset.addAll] using h tasks { tasks := [] }

/-! ### The format loop never runs out of fuel -/

theorem parsenumLoop_length (s : List Char) (num : Nat) (b : Bool) :
    (parsenumLoop s num b).2.2.length ≤ s.length := by
  induction s generalizing num b with
  | nil => simp [parsenumLoop]
  | cons c cs ih =>
    unfold parsenumLoop
    split
    · split
      · simp
      · exact Nat.le_succ_of_le (ih _ _)
    · simp

theorem parsenum_length (s : List Char) : (parsenum s).2.2.length ≤ s.length := by
  unfold parsenum
  split
  · simp
  · exact parsenumLoop_length _ _ _

theorem argNumber_length (s : List Char) : (argNumber s).1.length ≤ s.length := by
  unfold argNumber
  split
  · simp
  · simp

theorem widthStep_length (s : List Char) (a b : Bool) :
    (widthStep s a b).2.1.length ≤ s.length := by
  unfold widthStep
  split
  · simp
  · exact parsenum_length s

theorem precStep_length (s : List Char) (a b : Bool) :
    (precStep s a b).2.1.length ≤ s.length := by
  unfold precStep
  split
  · rename_i t
    have h1 := argNumber_length t
    generalize argNumber t = r at h1
    obtain ⟨t1, ai, b1⟩ := r
    simp only at h1 ⊢
    split
    · rename_i t2
      simp only [List.length_cons] at h1 ⊢
      omega
    · have h2 := parsenum_length t1
      generalize parsenum t1 = r2 at h2
      obtain ⟨n2, p2, t2⟩ := r2
      simp only [List.length_cons] at h2 ⊢
      omega
  · simp

theorem indexStep_length (s : List Char) (a b : Bool) :
    (indexStep s a b).1.length ≤ s.length := by
  unfold indexStep
  split
  · simp
  · exact argNumber_length s

theorem verbStep_length (s : List Char) (b : Bool) :
    (verbStep s b).2.length ≤ s.length := by
  unfold verbStep
  split
  · simp
  · split
    · simp
    · split <;> simp

theorem doVerb_length (s : List Char) : (doVerb s).2.length ≤ s.length := by
  unfold doVerb
  have h0 : (s.dropWhile isFlag).length ≤ s.length :=
    (List.dropWhile_sublist isFlag).length_le
  have h1 := argNumber_length (s.dropWhile isFlag)
  have h2 := widthStep_length (argNumber (s.dropWhile isFlag)).1
    (argNumber (s.dropWhile isFlag)).2.1 (argNumber (s.dropWhile isFlag)).2.2
  generalize argNumber (s.dropWhile isFlag) = r1 at h1 h2
  obtain ⟨s2, a1, b1⟩ := r1
  simp only at h1 h2 ⊢
  have h3 := precStep_length (widthStep s2 a1 b1).2.1 (widthStep s2 a1 b1).2.2.1
    (widthStep s2 a1 b1).2.2.2
  generalize widthStep s2 a1 b1 = r2 at h2 h3
  obtain ⟨o3, s3, a3, b3⟩ := r2
  simp only at h2 h3 ⊢
  have h4 := indexStep_length (precStep s3 a3 b3).2.1 (precStep s3 a3 b3).2.2.1
    (precStep s3 a3 b3).2.2.2
  generalize precStep s3 a3 b3 = r3 at h3 h4
  obtain ⟨o4, s4, a4, b4⟩ := r3
  simp only at h3 h4 ⊢
  have h5 := verbStep_length (indexStep s4 a4 b4).1 (indexStep s4 a4 b4).2
  generalize indexStep s4 a4 b4 = r4 at h4 h5
  obtain ⟨s5, b5⟩ := r4
  simp only at h4 h5 ⊢
  omega

/-- Any fuel above the length of the format gives the same text: the fuel `Errorf` supplies
is enough for every format. -/
theorem doPrintfLoop_fuel (f1 f2 : Nat) (s buf : List Char)
    (h1 : s.length < f1) (h2 : s.length < f2) :
    doPrintfLoop f1 s buf = doPrintfLoop f2 s buf := by
  induction f1 generalizing f2 s buf with
  | zero => omega
  | succ n ih =>
    cases f2 with
    | zero => omega
    | succ m =>
      unfold doPrintfLoop
      simp only
      split
      · rfl
      · rename_i c rest heq
        have hd : (s.dropWhile (fun c => c != '%')).length ≤ s.length :=
          (List.dropWhile_sublist _).length_le
        rw [heq] at hd
        simp only [List.length_cons] at hd
        have hv := doVerb_length rest
        exact ih _ _ _ (by omega) (by omega)

/-- A format without `%` is printed unchanged by `Errorf`. -/
theorem Errorf_of_no_percent (m : String) (h : '%' ∉ m.data) : Errorf m = { msg := m } := by
  have h1 : ∀ c ∈ m.data, (c != '%') = true := by
    intro c hc
    have : c ≠ '%' := fun e => h (e ▸ hc)
    simpa using this
  have h2 : m.data.dropWhile (fun c => c != '%') = [] := by
    rw [List.dropWhile_eq_nil_iff]
    exact h1
  have h3 : m.data.takeWhile (fun c => c != '%') = m.data := by
    rw [List.takeWhile_eq_self_iff]
    exact h1
  unfold Errorf
  simp [doPrintfLoop, h2, h3]

/-! ## The claims -/

/-- C1: when the handler applied to the params returns normally with a result `r` (whatever
its `Err`), `New(h, p).Await()` returns, and returns exactly `r`. -/
theorem C1_await_returns_handler_result (h : Handler) (p : List Value) (r : TaskResult)
    (hr : h p = HandlerOutcome.returns r) :
    Task.Await (some (New (some h) p)) = Outcome.ok r := by
  rw [await_eq]
  simp [awaitResult, callHandler, New, hr]

/-- C1 at the sum handler with params 2 and 3: the result is data 5 and a nil error. -/
theorem C1_witness_sum :
    sumHandler [Value.int 2, Value.int 3]
        = HandlerOutcome.returns { Data := Value.int 5, Err := none } ∧
      Task.Await (some (New (some sumHandler) [Value.int 2, Value.int 3]))
        = Outcome.ok { Data := Value.int 5, Err := none } :=
  ⟨rfl, C1_await_returns_handler_result sumHandler [Value.int 2, Value.int 3]
    { Data := Value.int 5, Err := none } rfl⟩

/-- C2: when the handler applied to the params panics, `Await()` still returns, and the
result has nil `Data` and a non-nil `Err`. -/
theorem C2_await_converts_fault (h : Handler) (p : List Value) (v : PanicVal)
    (hv : h p = HandlerOutcome.panics v) :
    ∃ r, Task.Await (some (New (some h) p)) = Outcome.ok r ∧
      r.Data = Value.nil ∧ r.Err ≠ none := by
  refine ⟨faultResult v, ?_, rfl, ?_⟩
  · rw [await_eq]
    simp [awaitResult, callHandler, New, hv]
  · simp [faultResult]

/-- C2 at a handler that reads `params[0]` of an empty parameter list. -/
theorem C2_witness_index_out_of_range :
    firstHandler [] = HandlerOutcome.panics
        (PanicVal.err (errorsNew "runtime error: index out of range [0] with length 0")) ∧
      ∃ r, Task.Await (some (New (some firstHandler) [])) = Outcome.ok r ∧
        r.Data = Value.nil ∧ r.Err ≠ none :=
  ⟨rfl, C2_await_converts_fault firstHandler [] _ rfl⟩

/-- C3: for non-nil tasks added in order to an empty taskset and every order in which the
goroutines complete, `AwaitAll()` returns a sequence of the same length whose entry `i` is
the result `Await()` returns for task `i`. -/
theorem C3_awaitAll_insertion_order (tasks : List Task) (sched : List Nat)
    (hp : sched.Perm (List.range tasks.length)) :
    ∃ R, Taskset.AwaitAll (Taskset.addAll (tasks.map some)) sched = Outcome.ok R ∧
      R.length = tasks.length ∧
      ∀ i, i < tasks.length →
        ∃ r, R[i]? = some r ∧ Task.Await (tasks[i]?) = Outcome.ok r := by
  have ht : (Taskset.addAll (tasks.map some)).tasks = tasks.map some := addAll_tasks _
  refine ⟨(tasks.map some).map awaitResult, ?_, by simp, ?_⟩
  · have h := awaitAll_eq (Taskset.addAll (tasks.map some)) sched (by simpa [ht] using hp)
    rw [h, ht]
  · intro i hi
    refine ⟨awaitResult (some tasks[i]), ?_, ?_⟩
    · simp [List.getElem?_eq_getElem hi]
    · rw [List.getElem?_eq_getElem hi, await_eq]

/-- C3 at three tasks producing 1, 2, 3 that complete in reverse order. -/
theorem C3_witness_three_tasks :
    [2, 1, 0].Perm (List.range 3) ∧
      (∃ R, Taskset.AwaitAll (Taskset.addAll
            ([New (some (constHandler 1)) [], New (some (constHandler 2)) [],
              New (some (constHandler 3)) []].map some)) [2, 1, 0] = Outcome.ok R ∧
          R.length = 3 ∧
          ∀ i, i < 3 →
            ∃ r, R[i]? = some r ∧
              Task.Await ([New (some (constHandler 1)) [], New (some (constHandler 2)) [],
                New (some (constHandler 3)) []][i]?) = Outcome.ok r) ∧
      Taskset.AwaitAll (Taskset.addAll
          ([New (some (constHandler 1)) [], New (some (constHandler 2)) [],
            New (some (constHandler 3)) []].map some)) [2, 1, 0]
        = Outcome.ok [{ Data := Value.int 1, Err := none }, { Data := Value.int 2, Err := none },
            { Data := Value.int 3, Err := none }] :=
  ⟨by decide,
    C3_awaitAll_insertion_order
      [New (some (constHandler 1)) [], New (some (constHandler 2)) [],
        New (some (constHandler 3)) []] [2, 1, 0] (by decide),
    by decide⟩

/-- C4, as stated, fails: the handler returns normally, the resolver panics on that result,
the deferred function recovers the resolver's panic and invokes the resolver a second time.
The counter kept by the resolver ends at 2. -/
theorem C4_counterexample_resolver_invoked_twice :
    (Task.Run (some (New (some sumHandler) [Value.int 2, Value.int 3])) panicResolver 0).calls
        = [{ Data := Value.int 5, Err := none },
           { Data := Value.nil, Err := some { msg := "resolver failed" } }] ∧
      (Task.Run (some (New (some sumHandler) [Value.int 2, Value.int 3])) panicResolver 0).state
        = 2 := by
  decide

/-- C4, amended: for every task (nil, with a nil handler, faulting or returning) and every
resolver that does not fault on the handler's normal result, one `Run` invokes the resolver
exactly once, with the result `Await()` would return. -/
theorem C4_run_invokes_resolver_once {σ : Type} (task : Option Task)
    (resolver : TaskResolver σ) (s : σ)
    (hres : ∀ r, callHandler task = HandlerOutcome.returns r → (resolver r s).2 = none) :
    (Task.Run task resolver s).calls = [awaitResult task] ∧
      (Task.Run task resolver s).calls.length = 1 := by
  unfold Task.Run awaitResult
  cases hc : callHandler task with
  | returns r =>
    have h := hres r hc
    rcases hr : resolver r s with ⟨s1, _ | v⟩
    · simp [hr]
    · rw [hr] at h
      simp at h
  | panics v =>
    rcases hr : resolver (faultResult v) s with ⟨s1, _ | v2⟩ <;> simp [hr]

/-- C4 amended, at the sum handler with a counting resolver: one invocation, with the
handler's result. -/
theorem C4_witness_counting_resolver :
    (∀ r, callHandler (some (New (some sumHandler) [Value.int 2, Value.int 3]))
          = HandlerOutcome.returns r → (countResolver r 0).2 = none) ∧
      (Task.Run (some (New (some sumHandler) [Value.int 2, Value.int 3])) countResolver 0).calls
        = [awaitResult (some (New (some sumHandler) [Value.int 2, Value.int 3]))] ∧
      (Task.Run (some (New (some sumHandler) [Value.int 2, Value.int 3])) countResolver
          0).calls.length = 1 :=
  ⟨fun _ _ => rfl,
    C4_run_invokes_resolver_once (some (New (some sumHandler) [Value.int 2, Value.int 3]))
      countResolver 0 (fun _ _ => rfl)⟩

/-- C5: two tasksets of the same length that hold the same task at index `i` both return
from `AwaitAll()`, whatever the completion orders, with the same result at index `i`, and
that result is the one `Await()` returns for that task alone. -/
theorem C5_awaitAll_isolation (ts1 ts2 : Taskset) (sched1 sched2 : List Nat) (i : Nat)
    (hlen : ts1.tasks.length = ts2.tasks.length) (hi : i < ts1.tasks.length)
    (hsame : ts1.tasks[i]? = ts2.tasks[i]?)
    (hp1 : sched1.Perm (List.range ts1.tasks.length))
    (hp2 : sched2.Perm (List.range ts2.tasks.length)) :
    ∃ R1 R2 r, Taskset.AwaitAll ts1 sched1 = Outcome.ok R1 ∧
      Taskset.AwaitAll ts2 sched2 = Outcome.ok R2 ∧
      R1[i]? = some r ∧ R2[i]? = some r ∧
      ∀ t, ts1.tasks[i]? = some t → Task.Await t = Outcome.ok r := by
  have hi2 : i < ts2.tasks.length := hlen ▸ hi
  refine ⟨_, _, awaitResult ts1.tasks[i], awaitAll_eq ts1 sched1 hp1,
    awaitAll_eq ts2 sched2 hp2, ?_, ?_, ?_⟩
  · simp [List.getElem?_eq_getElem hi]
  · rw [List.getElem?_eq_getElem hi, List.getElem?_eq_getElem hi2] at hsame
    have h : ts1.tasks[i] = ts2.tasks[i] := by simpa using hsame
    simp [List.getElem?_eq_getElem hi2, h]
  · intro t ht
    rw [List.getElem?_eq_getElem hi] at ht
    have h : ts1.tasks[i] = t := by simpa using ht
    rw [← h, await_eq]

/-- C5 at two tasksets that share only their first task: one has a panicking sibling, the
other a nil sibling. -/
theorem C5_witness_shared_first_task :
    ∃ R1 R2 r,
      Taskset.AwaitAll
          { tasks := [some (New (some (constHandler 1)) []),
              some (New (some (panicHandler "boom")) []), some (New (some (constHandler 3)) [])] }
          [0, 1, 2] = Outcome.ok R1 ∧
      Taskset.AwaitAll
          { tasks := [some (New (some (constHandler 1)) []), none,
              some (New (some sumHandler) [Value.int 2, Value.int 3])] }
          [2, 1, 0] = Outcome.ok R2 ∧
      R1[0]? = some r ∧ R2[0]? = some r ∧
      ∀ t, ([some (New (some (constHandler 1)) []),
              some (New (some (panicHandler "boom")) []),
              some (New (some (constHandler 3)) [])] : List (Option Task))[0]? = some t →
        Task.Await t = Outcome.ok r :=
  C5_awaitAll_isolation
    { tasks := [some (New (some (constHandler 1)) []),
        some (New (some (panicHandler "boom")) []), some (New (some (constHandler 3)) [])] }
    { tasks := [some (New (some (constHandler 1)) []), none,
        some (New (some sumHandler) [Value.int 2, Value.int 3])] }
    [0, 1, 2] [2, 1, 0] 0 rfl (by decide) rfl (by decide) (by decide)

/-- C6 fails on the code: for a taskset whose only entry is a nil task, the slot gets the
"task is null" error only for a moment; the unconditional `results[tid] = task.Await()`
that follows overwrites it with the converted nil-dereference fault, in `AwaitAll` and in
`Run` alike. -/
theorem C6_nil_task_slot_overwritten :
    Taskset.AwaitAll { tasks := [none] } [0]
        = Outcome.ok [{ Data := Value.nil, Err := some { msg := nilDerefMsg } }] ∧
      (Taskset.Run { tasks := [none] } countSetResolver [0] 0).calls
        = [[{ Data := Value.nil, Err := some { msg := nilDerefMsg } }]] ∧
      Taskset.AwaitAll { tasks := [none] } [0] ≠ Outcome.ok [nullTaskResult] := by
  decide

/-- C7: for every taskset (nil tasks, nil handlers, faulting and returning handlers) and every
completion order, `AwaitAll()` returns a result sequence of the taskset's length, and each
entry whose handler call did not return normally has nil `Data` and a non-nil `Err`. -/
theorem C7_awaitAll_never_faults (taskset : Taskset) (sched : List Nat)
    (hp : sched.Perm (List.range taskset.tasks.length)) :
    ∃ R, Taskset.AwaitAll taskset sched = Outcome.ok R ∧
      R.length = taskset.tasks.length ∧
      ∀ (i : Nat) (t : Option Task), taskset.tasks[i]? = some t → returnsNormally t = false →
        ∃ r : TaskResult, R[i]? = some r ∧ r.Data = Value.nil ∧ r.Err ≠ none := by
  refine ⟨_, awaitAll_eq taskset sched hp, by simp, ?_⟩
  intro i t ht hn
  refine ⟨awaitResult t, by simp [ht], ?_⟩
  unfold returnsNormally at hn
  unfold awaitResult
  cases hc : callHandler t with
  | returns r => simp [hc] at hn
  | panics v => simp [faultResult]

/-- C7 at a taskset with a nil task, a nil handler, a faulting and a returning handler. -/
theorem C7_witness_mixed_taskset :
    ∃ R, Taskset.AwaitAll
          { tasks := [none, some (New none []), some (New (some firstHandler) []),
              some (New (some sumHandler) [Value.int 2, Value.int 3])] }
          [3, 1, 0, 2] = Outcome.ok R ∧
      R.length = 4 ∧
      ∀ (i : Nat) (t : Option Task),
        ([none, some (New none []), some (New (some firstHandler) []),
              some (New (some sumHandler) [Value.int 2, Value.int 3])]
                : List (Option Task))[i]? = some t →
        returnsNormally t = false →
        ∃ r : TaskResult, R[i]? = some r ∧ r.Data = Value.nil ∧ r.Err ≠ none :=
  C7_awaitAll_never_faults
    { tasks := [none, some (New none []), some (New (some firstHandler) []),
        some (New (some sumHandler) [Value.int 2, Value.int 3])] }
    [3, 1, 0, 2] (by decide)

/-- C8: for every taskset, every resolver and every two completion orders, `AwaitAll()`
returns a sequence `R` and `Run` invokes its resolver exactly once, with that same `R`. -/
theorem C8_run_delivers_awaitAll {σ : Type} (taskset : Taskset)
    (resolver : TasksetResolver σ) (s : σ) (sched1 sched2 : List Nat)
    (hp1 : sched1.Perm (List.range taskset.tasks.length))
    (hp2 : sched2.Perm (List.range taskset.tasks.length)) :
    ∃ R, Taskset.AwaitAll taskset sched2 = Outcome.ok R ∧
      (Taskset.Run taskset resolver sched1 s).calls = [R] ∧
      (Taskset.Run taskset resolver sched1 s).calls.length = 1 := by
  refine ⟨_, awaitAll_eq taskset sched2 hp2, ?_, ?_⟩ <;> rw [run_eq taskset resolver sched1 s hp1]
  simp

/-- C8 at a taskset of a returning and a faulting task, with different completion orders. -/
theorem C8_witness_two_tasks :
    ∃ R, Taskset.AwaitAll
          { tasks := [some (New (some (constHandler 1)) []), some (New (some firstHandler) [])] }
          [1, 0] = Outcome.ok R ∧
      (Taskset.Run
          { tasks := [some (New (some (constHandler 1)) []), some (New (some firstHandler) [])] }
          countSetResolver [0, 1] 0).calls = [R] ∧
      (Taskset.Run
          { tasks := [some (New (some (constHandler 1)) []), some (New (some firstHandler) [])] }
          countSetResolver [0, 1] 0).calls.length = 1 :=
  C8_run_delivers_awaitAll
    { tasks := [some (New (some (constHandler 1)) []), some (New (some firstHandler) [])] }
    countSetResolver 0 [0, 1] [1, 0] (by decide) (by decide)

/-- C10 fails on the code: the text of the fault is passed to `fmt.Errorf` as the format, so
a `%` in it is read as a directive. A handler that panics with "100%" gives the message
"100%!(NOVERB)", and one that panics with "disk 100% full" gives "disk 100%!f(MISSING)ull". -/
theorem C10_percent_in_fault_text_rewritten :
    Task.Await (some (New (some (panicHandler "100%")) []))
        = Outcome.ok { Data := Value.nil, Err := some { msg := "100%!(NOVERB)" } } ∧
      Task.Await (some (New (some (panicHandler "disk 100% full")) []))
        = Outcome.ok { Data := Value.nil, Err := some { msg := "disk 100%!f(MISSING)ull" } } ∧
      Task.Await (some (New (some (panicHandler "100%")) []))
        ≠ Outcome.ok { Data := Value.nil, Err := some { msg := "100%" } } := by
  decide

end Async
